import Mathlib

/-!
Shallow embedding of the FileExtractor core (src/core/file_organizer.py and
the scanner's descriptor shape from src/utils/file_utils.py) in Lean 4,
together with theorems settling the frozen claims about the organizer.

Conventions of the embedding:
* Python strings are Lean `String`s; `os.path.join a b` is `a ++ "/" ++ b`.
* The filesystem is a list of existing paths (`os.path.exists` is list
  membership); I/O failures of `shutil.move`/`shutil.copy2` are an oracle
  `ioFail : String → String → Bool` (the `try/except` of the source).
* Python's decimal rendering of the collision counter (`f"{base}_{counter}{ext}"`)
  is `natRepr`, a fuel-based base-10 renderer that the kernel can evaluate.
* `datetime` values are reduced to the `year`/`month` fields, the only ones
  the organizer reads; the report's `datetime.now()` timestamp is
  nondeterministic wall-clock data and is omitted from the report record.
-/

namespace FileExtractor

/-- Decimal digit characters, as in core `Nat.digitChar`, restricted to the
base-10 digits that `f"{counter}"` can produce. -/
def digitChar (d : Nat) : Char :=
  if d = 0 then '0' else if d = 1 then '1' else if d = 2 then '2'
  else if d = 3 then '3' else if d = 4 then '4' else if d = 5 then '5'
  else if d = 6 then '6' else if d = 7 then '7' else if d = 8 then '8'
  else if d = 9 then '9' else '*'

/-- Most-significant-first decimal digits of `n`, with explicit fuel so that
the definition is structural and kernel-evaluable. -/
def decChars : Nat → Nat → List Char
  | 0, _ => []
  | fuel + 1, n =>
      if n = 0 then [] else decChars fuel (n / 10) ++ [digitChar (n % 10)]

/-- Python's `str(n)` / `f"{n}"` for a natural number: decimal notation. -/
def natRepr (n : Nat) : String :=
  if n = 0 then "0" else ⟨decChars n n⟩

/-- Value of a most-significant-first decimal digit string. -/
def valChars (l : List Char) : Nat :=
  l.foldl (fun a c => a * 10 + (c.toNat - 48)) 0

/-- `os.path.splitext` on the character list of a path, as implemented in
CPython's `posixpath`: split at the last dot of the final path component,
unless every character of that component before the dot is itself a dot. -/
def splitextData (cs : List Char) : List Char × List Char :=
  let rev := cs.reverse
  let extRev := rev.takeWhile (fun c => c != '.' && c != '/')
  match rev.drop extRev.length with
  | '.' :: pre =>
      if (pre.takeWhile (fun c => c != '/')).any (fun c => c != '.') then
        (cs.take (cs.length - extRev.length - 1), cs.drop (cs.length - extRev.length - 1))
      else (cs, [])
  | _ => (cs, [])

/-- `os.path.splitext`: root and extension of a path. -/
def splitext (p : String) : String × String :=
  (⟨(splitextData p.data).1⟩, ⟨(splitextData p.data).2⟩)

/-- A collision-suffixed candidate name: `f"{base}_{counter}{ext}"` from
`_move_or_copy_file`. -/
def cand (base ext : String) (k : Nat) : String :=
  base ++ "_" ++ natRepr k ++ ext

/-- The collision loop of `_move_or_copy_file`: try `{base}_{counter}{ext}`,
`{base}_{counter+1}{ext}`, … until a name not in `existing` is found.  `fuel`
makes the recursion structural; callers supply enough fuel for termination. -/
def findFree (existing : List String) (base ext : String) : Nat → Nat → String
  | counter, 0 => cand base ext counter
  | counter, fuel + 1 =>
      if cand base ext counter ∈ existing then
        findFree existing base ext (counter + 1) fuel
      else cand base ext counter

/-- Destination-name resolution of `_move_or_copy_file`: keep the candidate
path if it is free, otherwise append `_1`, `_2`, … before the extension
until a free name is found. -/
def resolve_destination (existing : List String) (destination : String) : String :=
  if destination ∈ existing then
    findFree existing (splitext destination).1 (splitext destination).2 1
      (existing.length + 1)
  else destination

/-- Sequential placement of candidate destination paths into one directory:
each placement resolves collisions against the set of already-existing paths
and then creates the resolved path (the per-file loop of the organizer
restricted to one destination directory). -/
def placeSeq : List String → List String → List String
  | [], _ => []
  | d :: ds, existing =>
      resolve_destination existing d
        :: placeSeq ds (resolve_destination existing d :: existing)

/-- One scanner-produced file descriptor (`FileAnalyzer.get_file_info`):
`name`, `path`, `size`, `modified_time` (reduced to the year and month
fields, the only ones the organizer reads), `file_type`, `mime_type`,
`extension`. -/
structure FileInfo where
  name : String
  path : String
  size : Nat
  mtimeYear : Nat
  mtimeMonth : Nat
  file_type : String
  mime_type : String
  extension : String
deriving DecidableEq, Repr

/-- One relocation record appended to a strategy's `moved_files`: the
`original` source path, the `new` destination path, and the strategy's
bucket key (`type` / `time` / `size_category` / `content_category` /
`chat_object` in the source dicts, one field here). -/
structure MovedRecord where
  original : String
  new : String
  key : String
deriving DecidableEq, Repr

/-- A per-strategy result dict: `method`, the `directories` manifest
(destination directory → filenames placed there, in insertion order),
`moved_files`, and the `error` entry present only in the classifier-missing
case of `_organize_by_content`. -/
structure Plan where
  method : String
  directories : List (String × List String)
  moved_files : List MovedRecord
  error : Option String
deriving DecidableEq, Repr

/-- Result dict of the external classifier's `analyze_file_content`:
the `ai_analysis` flag and the optional `category` entry (the `content_summary`
and `suggested_tags` entries are informational and unused by the organizer). -/
structure AIResult where
  ai_analysis : Bool
  category : Option String
deriving DecidableEq, Repr

/-- Aggregate report dict of `_generate_report` (the `timestamp` entry,
`datetime.now().isoformat()`, is nondeterministic wall-clock data and is
omitted). `type_statistics` maps a coarse file type to its `(count, size)`. -/
structure Report where
  total_files : Nat
  total_size : Nat
  type_statistics : List (String × Nat × Nat)
  organization_methods : List String
deriving DecidableEq, Repr

/-- Overall result dict of `organize_files`. -/
structure OrganizeResult where
  success : Bool
  message : Option String
  organized_files : List (String × Plan)
  report : Option Report
  total_files : Option Nat
deriving Repr

/-- `os.path.join` for the relative second arguments the organizer uses. -/
def joinPath (a b : String) : String := a ++ "/" ++ b

/-- The `chinese_names` table of `FileOrganizer.__init__`. -/
def chinese_names : List (String × String) :=
  [("jpg", "图片文件"), ("png", "图片文件"), ("gif", "图片文件"),
   ("bmp", "图片文件"), ("tiff", "图片文件"), ("heic", "图片文件"),
   ("webp", "图片文件"),
   ("mp4", "视频文件"), ("avi", "视频文件"), ("mov", "视频文件"),
   ("wmv", "视频文件"), ("flv", "视频文件"), ("mkv", "视频文件"),
   ("webm", "视频文件"), ("m4v", "视频文件"),
   ("mp3", "音频文件"), ("wav", "音频文件"), ("aac", "音频文件"),
   ("m4a", "音频文件"), ("flac", "音频文件"), ("ogg", "音频文件"),
   ("wma", "音频文件"),
   ("pdf", "PDF文档"), ("doc", "Word文档"), ("docx", "Word文档"),
   ("txt", "文本文件"), ("rtf", "富文本文件"),
   ("ppt", "PPT演示"), ("pptx", "PPT演示"),
   ("xls", "Excel表格"), ("xlsx", "Excel表格"),
   ("zip", "压缩文件"), ("rar", "压缩文件"), ("7z", "压缩文件"),
   ("tar", "压缩文件"), ("gz", "压缩文件"), ("bz2", "压缩文件"),
   ("no_ext", "无扩展名文件"),
   ("reports_research", "报告研究"), ("plans_strategies", "计划策略"),
   ("work_projects", "工作项目"), ("audio_recordings", "录音文件"),
   ("images_photos", "图片照片"), ("videos", "视频文件"),
   ("documents", "文档资料"), ("data_spreadsheets", "数据表格"),
   ("contracts_agreements", "合同协议"), ("personal_documents", "个人资料"),
   ("financial_documents", "财务文档"), ("learning_materials", "学习资料"),
   ("marketing_materials", "营销材料"), ("periodic_reports", "定期报告"),
   ("market_insights", "市场洞察"), ("technology_ai", "技术AI"),
   ("health_fitness", "健康健身"), ("travel_accommodation", "旅游住宿"),
   ("shopping_orders", "购物订单"), ("social_chat", "社交聊天"),
   ("entertainment_games", "娱乐游戏"), ("daily_life", "日常生活"),
   ("archives", "归档文件"), ("other_files", "其他文件"),
   ("tiny", "极小文件"), ("small", "小文件"), ("medium", "中等文件"),
   ("large", "大文件"), ("huge", "超大文件"),
   ("unknown", "未知聊天")]

/-- `_get_chinese_name`: look the key up in `chinese_names`, falling back to
the key itself. -/
def get_chinese_name (key : String) : String :=
  (List.lookup key chinese_names).getD key

/-- `_normalize_extension`: merge common synonymous extensions. -/
def normalize_extension (ext_key : String) : String :=
  if ext_key = "" then "no_ext"
  else if ext_key = "jpeg" then "jpg"
  else if ext_key = "jpe" then "jpg"
  else if ext_key = "tif" then "tiff"
  else if ext_key = "htm" then "html"
  else ext_key

/-- Python's `str.lower()`, character-wise (the extensions involved are
ASCII). -/
def strLower (s : String) : String := ⟨s.data.map Char.toLower⟩

/-- Python's `ext.startswith('.')`. -/
def strStartsWithDot (s : String) : Bool :=
  match s.data with
  | '.' :: _ => true
  | _ => false

/-- Python's `ext[1:]`: the string without its first character. -/
def strDrop1 (s : String) : String := ⟨s.data.drop 1⟩

/-- Python's `len(ext)`: the number of characters. -/
def strLen (s : String) : Nat := s.data.length

/-- The `ext_key` computation at the top of `_organize_by_type`'s loop:
`ext[1:] if ext.startswith('.') and len(ext) > 1 else (ext if ext else 'no_ext')`
over the lowercased extension. -/
def ext_key_raw (extension : String) : String :=
  let ext := strLower extension
  if strStartsWithDot ext ∧ strLen ext > 1 then strDrop1 ext
  else if ext ≠ "" then ext else "no_ext"

/-- The full `by_type` bucket key of a descriptor. -/
def type_bucket (f : FileInfo) : String :=
  normalize_extension (ext_key_raw f.extension)

/-- Python's `f"{m:02d}"` for the month: zero-pad to two digits. -/
def month02 (m : Nat) : String :=
  if m < 10 then "0" ++ natRepr m else natRepr m

/-- The `by_time` bucket key: `f"{modified_time.year}年{modified_time.month:02d}月"`. -/
def time_bucket (f : FileInfo) : String :=
  natRepr f.mtimeYear ++ "年" ++ month02 f.mtimeMonth ++ "月"

/-- The `by_size` bucket key: the threshold chain of `_organize_by_size`. -/
def size_category (size : Nat) : String :=
  if size < 1024 then "tiny"
  else if size < 1024 * 1024 then "small"
  else if size < 10 * 1024 * 1024 then "medium"
  else if size < 100 * 1024 * 1024 then "large"
  else "huge"

/-- `Path(path).parts` for the organizer's use: the path's components, with
a leading `/` component for an absolute path. -/
def pathParts (p : String) : List String :=
  let comps := (p.splitOn "/").filter (fun s => s ≠ "")
  if p.startsWith "/" then "/" :: comps else comps

/-- `_extract_chat_object`: the first path component starting with `msg`
or `chat`, else `unknown`. -/
def extract_chat_object : List String → String
  | [] => "unknown"
  | part :: rest =>
      if part.startsWith "msg" ∨ part.startsWith "chat" then part
      else extract_chat_object rest

/-- `_move_or_copy_file`: resolve the destination against the existing
paths, then attempt the copy (`keep_originals = true`) or move
(`keep_originals = false`); `ioFail` is the oracle for the exceptions the
source catches, under which nothing changes and `False` is returned. -/
def move_or_copy_file (ioFail : String → String → Bool) (fs : List String)
    (source destination : String) (keep_originals : Bool) : Bool × List String :=
  let dest := resolve_destination fs destination
  if ioFail source dest then (false, fs)
  else (true, (if keep_originals then fs else fs.erase source) ++ [dest])

/-- Append `v` to the entry of `k` in an insertion-ordered dict of lists
(`type_dirs[type_dir].append(...)`). -/
def assocAppendVal : List (String × List String) → String → String →
    List (String × List String)
  | [], k, v => [(k, [v])]
  | (k', vs) :: rest, k, v =>
      if k' = k then (k', vs ++ [v]) :: rest
      else (k', vs) :: assocAppendVal rest k v

/-- Ensure `k` has an entry (`if type_dir not in type_dirs: ... = []`). -/
def assocEnsure (dirs : List (String × List String)) (k : String) :
    List (String × List String) :=
  if (List.lookup k dirs).isSome then dirs else dirs ++ [(k, [])]

/-- Shared loop body of the four non-classifier strategies: ensure the
bucket directory exists, form the candidate destination `type_dir/name`,
call `_move_or_copy_file`, and on success record the relocation (with the
candidate path, not the collision-resolved one) and the manifest entry. -/
def strategyStep (ioFail : String → String → Bool) (keep_originals : Bool)
    (bucketDir key : String) (f : FileInfo)
    (dirs : List (String × List String)) (moved : List MovedRecord)
    (fs : List String) :
    List (String × List String) × List MovedRecord × List String :=
  let dirs1 := assocEnsure dirs bucketDir
  let new_path := joinPath bucketDir f.name
  let r := move_or_copy_file ioFail fs f.path new_path keep_originals
  if r.1 then
    (assocAppendVal dirs1 bucketDir f.name,
     moved ++ [⟨f.path, new_path, key⟩], r.2)
  else (dirs1, moved, r.2)

/-- The loop of `_organize_by_type`. -/
def byTypeGo (target : String) (keep_originals : Bool)
    (ioFail : String → String → Bool) :
    List FileInfo → List (String × List String) → List MovedRecord →
      List String → List (String × List String) × List MovedRecord × List String
  | [], dirs, moved, fs => (dirs, moved, fs)
  | f :: rest, dirs, moved, fs =>
      let ext_key := type_bucket f
      let type_dir := joinPath (joinPath target "按类型分类") (get_chinese_name ext_key)
      let st := strategyStep ioFail keep_originals type_dir ext_key f dirs moved fs
      byTypeGo target keep_originals ioFail rest st.1 st.2.1 st.2.2

/-- `_organize_by_type`, returning the plan and the updated filesystem. -/
def organize_by_type (files : List FileInfo) (target : String)
    (keep_originals : Bool) (ioFail : String → String → Bool)
    (fs : List String) : Plan × List String :=
  let st := byTypeGo target keep_originals ioFail files [] [] fs
  (⟨"by_type", st.1, st.2.1, none⟩, st.2.2)

/-- The loop of `_organize_by_time`. -/
def byTimeGo (target : String) (keep_originals : Bool)
    (ioFail : String → String → Bool) :
    List FileInfo → List (String × List String) → List MovedRecord →
      List String → List (String × List String) × List MovedRecord × List String
  | [], dirs, moved, fs => (dirs, moved, fs)
  | f :: rest, dirs, moved, fs =>
      let year_month := time_bucket f
      let time_dir := joinPath (joinPath target "按时间分类") year_month
      let st := strategyStep ioFail keep_originals time_dir year_month f dirs moved fs
      byTimeGo target keep_originals ioFail rest st.1 st.2.1 st.2.2

/-- `_organize_by_time` (note: the bucket name is used directly, with no
`chinese_names` mapping). -/
def organize_by_time (files : List FileInfo) (target : String)
    (keep_originals : Bool) (ioFail : String → String → Bool)
    (fs : List String) : Plan × List String :=
  let st := byTimeGo target keep_originals ioFail files [] [] fs
  (⟨"by_time", st.1, st.2.1, none⟩, st.2.2)

/-- The loop of `_organize_by_size`. -/
def bySizeGo (target : String) (keep_originals : Bool)
    (ioFail : String → String → Bool) :
    List FileInfo → List (String × List String) → List MovedRecord →
      List String → List (String × List String) × List MovedRecord × List String
  | [], dirs, moved, fs => (dirs, moved, fs)
  | f :: rest, dirs, moved, fs =>
      let cat := size_category f.size
      let size_dir := joinPath (joinPath target "按大小分类") (get_chinese_name cat)
      let st := strategyStep ioFail keep_originals size_dir cat f dirs moved fs
      bySizeGo target keep_originals ioFail rest st.1 st.2.1 st.2.2

/-- `_organize_by_size`. -/
def organize_by_size (files : List FileInfo) (target : String)
    (keep_originals : Bool) (ioFail : String → String → Bool)
    (fs : List String) : Plan × List String :=
  let st := bySizeGo target keep_originals ioFail files [] [] fs
  (⟨"by_size", st.1, st.2.1, none⟩, st.2.2)

/-- The loop of `_organize_by_chat`. -/
def byChatGo (target : String) (keep_originals : Bool)
    (ioFail : String → String → Bool) :
    List FileInfo → List (String × List String) → List MovedRecord →
      List String → List (String × List String) × List MovedRecord × List String
  | [], dirs, moved, fs => (dirs, moved, fs)
  | f :: rest, dirs, moved, fs =>
      let chat_object := extract_chat_object (pathParts f.path)
      let chat_dir := joinPath (joinPath target "按聊天分类") (get_chinese_name chat_object)
      let st := strategyStep ioFail keep_originals chat_dir chat_object f dirs moved fs
      byChatGo target keep_originals ioFail rest st.1 st.2.1 st.2.2

/-- `_organize_by_chat`. -/
def organize_by_chat (files : List FileInfo) (target : String)
    (keep_originals : Bool) (ioFail : String → String → Bool)
    (fs : List String) : Plan × List String :=
  let st := byChatGo target keep_originals ioFail files [] [] fs
  (⟨"by_chat", st.1, st.2.1, none⟩, st.2.2)

/-- The loop of `_organize_by_content` (classifier present): a file is
processed only when the classifier's result has a truthy `ai_analysis`;
its bucket is then the `category` entry, defaulting to `unknown`.  A file
whose result has a falsy `ai_analysis` is skipped entirely. -/
def byContentGo (cl : FileInfo → AIResult) (target : String)
    (keep_originals : Bool) (ioFail : String → String → Bool) :
    List FileInfo → List (String × List String) → List MovedRecord →
      List String → List (String × List String) × List MovedRecord × List String
  | [], dirs, moved, fs => (dirs, moved, fs)
  | f :: rest, dirs, moved, fs =>
      let ai_result := cl f
      if ai_result.ai_analysis then
        let content_category := ai_result.category.getD "unknown"
        let content_dir :=
          joinPath (joinPath target "按内容分类") (get_chinese_name content_category)
        let st := strategyStep ioFail keep_originals content_dir content_category
          f dirs moved fs
        byContentGo cl target keep_originals ioFail rest st.1 st.2.1 st.2.2
      else byContentGo cl target keep_originals ioFail rest dirs moved fs

/-- `_organize_by_content`: with no classifier, return the error plan
without touching any file; otherwise run the classifier-driven loop. -/
def organize_by_content (classifier : Option (FileInfo → AIResult))
    (files : List FileInfo) (target : String) (keep_originals : Bool)
    (ioFail : String → String → Bool) (fs : List String) : Plan × List String :=
  match classifier with
  | none => (⟨"by_content", [], [], some "需要AI分析器"⟩, fs)
  | some cl =>
      let st := byContentGo cl target keep_originals ioFail files [] [] fs
      (⟨"by_content", st.1, st.2.1, none⟩, st.2.2)

/-- One step of the `type_stats` accumulation in `_generate_report`. -/
def bumpStat : List (String × Nat × Nat) → String → Nat → List (String × Nat × Nat)
  | [], t, s => [(t, 1, s)]
  | (t', c, sz) :: rest, t, s =>
      if t' = t then (t', c + 1, sz + s) :: rest
      else (t', c, sz) :: bumpStat rest t s

/-- `_generate_report`: aggregate over `all_files`, the scanned descriptor
list, independently of any relocation outcome. -/
def generate_report (organized_files : List (String × Plan))
    (all_files : List FileInfo) : Report :=
  ⟨all_files.length,
   (all_files.map (·.size)).sum,
   all_files.foldl (fun st f => bumpStat st f.file_type f.size) [],
   organized_files.map (·.1)⟩

/-- The dispatch loop of `organize_files` over `self.organization_methods`:
recognized method names run their strategy (threading the filesystem),
unknown names are skipped. -/
def runMethods (files : List FileInfo) (target : String)
    (classifier : Option (FileInfo → AIResult)) (keep_originals : Bool)
    (ioFail : String → String → Bool) :
    List String → List String → List (String × Plan) × List String
  | [], fs => ([], fs)
  | m :: ms, fs =>
      if m = "by_type" then
        let r := organize_by_type files target keep_originals ioFail fs
        let rest := runMethods files target classifier keep_originals ioFail ms r.2
        ((m, r.1) :: rest.1, rest.2)
      else if m = "by_time" then
        let r := organize_by_time files target keep_originals ioFail fs
        let rest := runMethods files target classifier keep_originals ioFail ms r.2
        ((m, r.1) :: rest.1, rest.2)
      else if m = "by_content" then
        let r := organize_by_content classifier files target keep_originals ioFail fs
        let rest := runMethods files target classifier keep_originals ioFail ms r.2
        ((m, r.1) :: rest.1, rest.2)
      else if m = "by_size" then
        let r := organize_by_size files target keep_originals ioFail fs
        let rest := runMethods files target classifier keep_originals ioFail ms r.2
        ((m, r.1) :: rest.1, rest.2)
      else if m = "by_chat" then
        let r := organize_by_chat files target keep_originals ioFail fs
        let rest := runMethods files target classifier keep_originals ioFail ms r.2
        ((m, r.1) :: rest.1, rest.2)
      else runMethods files target classifier keep_originals ioFail ms fs

/-- `organize_files`, after scanning: on an empty descriptor list, the one
run-level failure (`{'success': False, 'message': '没有找到文件'}`);
otherwise apply each recognized method, generate the report, and return
success. -/
def organize_files (files : List FileInfo) (target : String)
    (methods : List String) (classifier : Option (FileInfo → AIResult))
    (keep_originals : Bool) (ioFail : String → String → Bool)
    (fs : List String) : OrganizeResult :=
  if files.isEmpty then ⟨false, some "没有找到文件", [], none, none⟩
  else
    let r := runMethods files target classifier keep_originals ioFail methods fs
    let report := generate_report r.1 files
    ⟨true, none, r.1, some report, some files.length⟩

/-- The `(count, size)` entry of a coarse type in a statistics table,
`(0, 0)` when absent. -/
def statOf (stats : List (String × Nat × Nat)) (t : String) : Nat × Nat :=
  (List.lookup t stats).getD (0, 0)

/-- The number of scanned descriptors of coarse type `t`. -/
def countType (files : List FileInfo) (t : String) : Nat :=
  (files.filter (fun f => f.file_type = t)).length

/-- The total byte size of the scanned descriptors of coarse type `t`. -/
def sizeType (files : List FileInfo) (t : String) : Nat :=
  ((files.filter (fun f => f.file_type = t)).map (·.size)).sum

/-- A sample scanned descriptor (a PNG image modified in March 2024). -/
def samplePng : FileInfo :=
  ⟨"photo.png", "/src/a/photo.png", 2048, 2024, 3, "image", "image/png", ".png"⟩

/-- A second descriptor with the same base filename from another folder. -/
def samplePng2 : FileInfo :=
  ⟨"photo.png", "/src/b/photo.png", 999, 2024, 12, "image", "image/png", ".png"⟩

/-- A descriptor with the same stem but a different image extension. -/
def sampleJpg : FileInfo :=
  ⟨"photo.jpg", "/src/c/photo.jpg", 4096, 2023, 7, "image", "image/jpeg", ".jpg"⟩

/-- The oracle of a run in which no copy or move raises. -/
def noFail : String → String → Bool := fun _ _ => false

/-- The destination directory `by_type` computes for a descriptor. -/
def type_dir_of (target : String) (f : FileInfo) : String :=
  joinPath (joinPath target "按类型分类") (get_chinese_name (type_bucket f))

/-- The relocation record `by_type` appends for a descriptor: the candidate
destination path (the un-suffixed `type_dir/name`), not the
collision-resolved one. -/
def type_record_of (target : String) (f : FileInfo) : MovedRecord :=
  ⟨f.path, joinPath (type_dir_of target f) f.name, type_bucket f⟩

theorem digitChar_toNat {d : Nat} (h : d < 10) : (digitChar d).toNat - 48 = d := by
  interval_cases d <;> decide

theorem valChars_append_digit (xs : List Char) (c : Char) :
    valChars (xs ++ [c]) = valChars xs * 10 + (c.toNat - 48) := by
  simp [valChars, List.foldl_append]

theorem valChars_decChars : ∀ fuel n, n ≤ fuel → valChars (decChars fuel n) = n := by
  intro fuel
  induction fuel with
  | zero =>
      intro n hn
      interval_cases n
      simp [decChars, valChars]
  | succ fuel ih =>
      intro n hn
      by_cases h0 : n = 0
      · subst h0; simp [decChars, valChars]
      · have hdiv : n / 10 ≤ fuel := by
          have : n / 10 < n := Nat.div_lt_self (Nat.pos_of_ne_zero h0) (by omega)
          omega
        have hmod : n % 10 < 10 := Nat.mod_lt _ (by omega)
        simp only [decChars, h0, if_false]
        rw [valChars_append_digit, ih _ hdiv, digitChar_toNat hmod]
        omega

theorem decChars_ne_nil {fuel n : Nat} (hn : 0 < n) (hf : 0 < fuel) :
    decChars fuel n ≠ [] := by
  cases fuel with
  | zero => omega
  | succ fuel =>
      have h0 : ¬ n = 0 := by omega
      simp only [decChars, h0, if_false]
      exact List.append_ne_nil_of_right_ne_nil _ (by simp)

theorem natRepr_injective : Function.Injective natRepr := by
  intro m n h
  by_cases hm : m = 0 <;> by_cases hn : n = 0
  · omega
  · exfalso
    have hval : valChars (decChars n n) = n := valChars_decChars n n le_rfl
    simp only [natRepr, hm, hn, if_true, if_false] at h
    have hd : (decChars n n) = ['0'] := by
      have := congrArg String.data h
      simpa using this.symm
    rw [hd] at hval
    simp [valChars] at hval
    omega
  · exfalso
    have hval : valChars (decChars m m) = m := valChars_decChars m m le_rfl
    simp only [natRepr, hm, hn, if_true, if_false] at h
    have hd : (decChars m m) = ['0'] := by
      have := congrArg String.data h
      simpa using this
    rw [hd] at hval
    simp [valChars] at hval
    omega
  · have hvm : valChars (decChars m m) = m := valChars_decChars m m le_rfl
    have hvn : valChars (decChars n n) = n := valChars_decChars n n le_rfl
    simp only [natRepr, hm, hn, if_false] at h
    have hd : decChars m m = decChars n n := congrArg String.data h
    rw [hd, hvn] at hvm
    omega

theorem natRepr_ne_empty (n : Nat) : natRepr n ≠ "" := by
  by_cases h0 : n = 0
  · subst h0; simp [natRepr]
  · simp only [natRepr, h0, if_false]
    intro hcon
    have : decChars n n = [] := congrArg String.data hcon
    exact decChars_ne_nil (Nat.pos_of_ne_zero h0) (Nat.pos_of_ne_zero h0) this

theorem string_data_inj {a b : String} (h : a.data = b.data) : a = b := by
  cases a; cases b; exact congrArg String.mk (by simpa using h)

theorem data_append (a b : String) : (a ++ b).data = a.data ++ b.data := rfl

theorem splitextData_append (cs : List Char) :
    (splitextData cs).1 ++ (splitextData cs).2 = cs := by
  simp only [splitextData]
  split
  · split
    · exact List.take_append_drop _ _
    · simp
  · simp

theorem splitext_append (p : String) : (splitext p).1 ++ (splitext p).2 = p := by
  apply string_data_inj
  rw [data_append]
  exact splitextData_append p.data

theorem underscore_data : ("_" : String).data = ['_'] := rfl

theorem cand_injective (base ext : String) : Function.Injective (cand base ext) := by
  intro j k h
  have hd : base.data ++ ('_' :: ((natRepr j).data ++ ext.data))
      = base.data ++ ('_' :: ((natRepr k).data ++ ext.data)) := by
    simpa [cand, data_append, underscore_data, List.append_assoc]
      using congrArg String.data h
  have h1 := List.append_cancel_left hd
  have h2 : (natRepr j).data ++ ext.data = (natRepr k).data ++ ext.data := by
    simpa using h1
  have h3 : (natRepr j).data = (natRepr k).data := List.append_cancel_right h2
  exact natRepr_injective (string_data_inj h3)

theorem cand_data_length (base ext : String) (k : Nat) :
    (cand base ext k).data.length
      = base.data.length + 1 + (natRepr k).data.length + ext.data.length := by
  simp [cand, data_append, underscore_data, List.length_append]
  omega

theorem natRepr_data_pos (k : Nat) : 0 < (natRepr k).data.length := by
  rcases h : (natRepr k).data with _ | _
  · exact absurd (string_data_inj (a := natRepr k) (b := "") (by simp [h]))
      (natRepr_ne_empty k)
  · simp

theorem cand_ne_join {base ext p : String} (h : base ++ ext = p) (k : Nat) :
    cand base ext k ≠ p := by
  intro hcon
  have hlen := congrArg (fun s => s.data.length) hcon
  simp only at hlen
  rw [cand_data_length] at hlen
  have hp : p.data.length = base.data.length + ext.data.length := by
    have := congrArg String.data h
    rw [data_append] at this
    simp [← this]
  have := natRepr_data_pos k
  omega

theorem findFree_eq (existing : List String) (b e : String) :
    ∀ (fuel counter j : Nat), j < fuel →
      cand b e (counter + j) ∉ existing →
      (∀ i, i < j → cand b e (counter + i) ∈ existing) →
      findFree existing b e counter fuel = cand b e (counter + j) := by
  intro fuel
  induction fuel with
  | zero => intro counter j hj; omega
  | succ fuel ih =>
      intro counter j hj hfree hmem
      cases j with
      | zero =>
          simp only [Nat.add_zero] at hfree
          simp [findFree, hfree]
      | succ j' =>
          have h0 : cand b e counter ∈ existing := by
            have := hmem 0 (by omega)
            simpa using this
          simp only [findFree, h0, if_true]
          have := ih (counter + 1) j' (by omega)
            (by rw [show counter + 1 + j' = counter + (j' + 1) by omega]; exact hfree)
            (fun i hi => by
              rw [show counter + 1 + i = counter + (i + 1) by omega]
              exact hmem (i + 1) (by omega))
          rw [this]
          congr 1
          omega

theorem exists_free_cand (existing : List String) (b e : String) :
    ∃ j, j < existing.length + 1 ∧ cand b e (1 + j) ∉ existing := by
  by_contra hcon
  push_neg at hcon
  have hinj : Function.Injective (fun j : Nat => cand b e (1 + j)) := by
    intro a a' h
    have := cand_injective b e h
    omega
  have hsub : (Finset.range (existing.length + 1)).image (fun j => cand b e (1 + j))
      ⊆ existing.toFinset := by
    intro x hx
    rcases Finset.mem_image.mp hx with ⟨j, hj, rfl⟩
    exact List.mem_toFinset.mpr (hcon j (Finset.mem_range.mp hj))
  have hcard := Finset.card_le_card hsub
  rw [Finset.card_image_of_injective _ hinj, Finset.card_range] at hcard
  have := existing.toFinset_card_le
  omega

theorem resolve_destination_not_mem (existing : List String) (d : String) :
    resolve_destination existing d ∉ existing := by
  unfold resolve_destination
  by_cases hd : d ∈ existing
  · simp only [hd, if_true]
    obtain ⟨j, hj, hfree⟩ := exists_free_cand existing (splitext d).1 (splitext d).2
    have hex : ∃ j, cand (splitext d).1 (splitext d).2 (1 + j) ∉ existing := ⟨j, hfree⟩
    have hspec := Nat.find_spec hex
    have hle : Nat.find hex ≤ j := Nat.find_le hfree
    rw [findFree_eq existing _ _ (existing.length + 1) 1 (Nat.find hex) (by omega)
      hspec (fun i hi => by
        have := Nat.find_min hex hi
        simpa using this)]
    exact hspec
  · simp [hd]

theorem placeSeq_fresh_nodup :
    ∀ (ds existing : List String),
      (∀ x ∈ placeSeq ds existing, x ∉ existing) ∧ (placeSeq ds existing).Nodup := by
  intro ds
  induction ds with
  | nil => intro existing; simp [placeSeq]
  | cons d ds ih =>
      intro existing
      obtain ⟨hfresh, hnodup⟩ := ih (resolve_destination existing d :: existing)
      constructor
      · intro x hx
        simp only [placeSeq, List.mem_cons] at hx
        rcases hx with rfl | hx
        · exact resolve_destination_not_mem existing d
        · exact fun hmem => hfresh x hx (List.mem_cons_of_mem _ hmem)
      · simp only [placeSeq, List.nodup_cons]
        exact ⟨fun hmem => hfresh _ hmem (List.mem_cons_self _ _), hnodup⟩

theorem statOf_nil (t : String) : statOf [] t = (0, 0) := rfl

theorem statOf_cons (k : String) (p : Nat × Nat)
    (rest : List (String × Nat × Nat)) (t : String) :
    statOf ((k, p) :: rest) t = if t = k then p else statOf rest t := by
  by_cases h : t = k
  · simp [statOf, List.lookup, h]
  · have hb : (t == k) = false := beq_eq_false_iff_ne.mpr h
    simp [statOf, List.lookup, h, hb]

theorem statOf_bumpStat (stats : List (String × Nat × Nat)) (t' : String)
    (s : Nat) (t : String) :
    statOf (bumpStat stats t' s) t
      = if t = t' then ((statOf stats t).1 + 1, (statOf stats t).2 + s)
        else statOf stats t := by
  induction stats with
  | nil =>
      by_cases h : t = t' <;> simp [bumpStat, statOf_cons, statOf_nil, h]
  | cons p rest ih =>
      obtain ⟨k, c, sz⟩ := p
      by_cases hk : k = t'
      · subst hk
        by_cases ht : t = k
        · subst ht
          simp [bumpStat, statOf_cons]
        · simp [bumpStat, statOf_cons, ht]
      · by_cases ht : t = k
        · subst ht
          simp [bumpStat, hk, statOf_cons]
        · by_cases h : t = t'
          · subst h
            simp [bumpStat, hk, statOf_cons, ht, ih]
          · simp [bumpStat, hk, statOf_cons, ht, ih, h]

theorem statOf_foldl_bumpStat (files : List FileInfo) :
    ∀ (init : List (String × Nat × Nat)) (t : String),
      statOf (files.foldl (fun st f => bumpStat st f.file_type f.size) init) t
        = ((statOf init t).1 + countType files t,
           (statOf init t).2 + sizeType files t) := by
  induction files with
  | nil => intro init t; simp [countType, sizeType]
  | cons f rest ih =>
      intro init t
      simp only [List.foldl_cons]
      rw [ih]
      by_cases h : f.file_type = t
      · rw [statOf_bumpStat, if_pos h.symm]
        simp [countType, sizeType, h]
        constructor <;> omega
      · rw [statOf_bumpStat, if_neg (fun hc => h hc.symm)]
        simp [countType, sizeType, h]

/-- C3 counterexample: the `by_time` bucket key of a file modified in
March 2024 is the Chinese-format string `2024年03月`, not `2024_03` as the
claim states. -/
theorem claim_C3_counterexample :
    (organize_by_time [samplePng] "t" true noFail []).1.moved_files
        = [⟨"/src/a/photo.png", "t/按时间分类/2024年03月/photo.png", "2024年03月"⟩]
      ∧ time_bucket samplePng = "2024年03月"
      ∧ time_bucket samplePng ≠ "2024_03" := by
  refine ⟨by decide, by decide, by decide⟩

/-- C3 as amended: for every descriptor processed by the `by_time` strategy
the bucket key is `f"{year}年{month:02d}月"` of the modification time (the
month zero-padded to two digits), the destination directory is that bucket
under `按时间分类`, and a file modified on 2024-03-15 is placed in bucket
`2024年03月`. -/
theorem claim_C3 (f : FileInfo) (target : String) (keep : Bool) (fs : List String) :
    (organize_by_time [f] target keep noFail fs).1.moved_files
        = [⟨f.path,
            joinPath (joinPath (joinPath target "按时间分类") (time_bucket f)) f.name,
            time_bucket f⟩]
      ∧ time_bucket f = natRepr f.mtimeYear ++ "年" ++ month02 f.mtimeMonth ++ "月"
      ∧ time_bucket samplePng = "2024年03月" := by
  refine ⟨?_, rfl, by decide⟩
  simp [organize_by_time, byTimeGo, strategyStep, move_or_copy_file, noFail]

/-- C5: a run whose scan found no descriptors is the one overall failure,
with the "no files found" message (`没有找到文件`); with at least one
descriptor the call succeeds for every per-file failure pattern `ioFail`. -/
theorem claim_C5 (files : List FileInfo) (target : String) (methods : List String)
    (classifier : Option (FileInfo → AIResult)) (keep : Bool)
    (ioFail : String → String → Bool) (fs : List String) :
    ((organize_files files target methods classifier keep ioFail fs).success
        = !files.isEmpty)
      ∧ (files = [] →
          (organize_files files target methods classifier keep ioFail fs).message
            = some "没有找到文件") := by
  constructor
  · by_cases h : files.isEmpty <;> simp [organize_files, h]
  · rintro rfl; simp [organize_files]

/-- C5 witness: the empty-scan run fails with the "no files found" message,
and a one-descriptor run succeeds even when every relocation fails. -/
theorem claim_C5_witness :
    (organize_files [] "t" ["by_type"] none true noFail []).success = false
      ∧ (organize_files [] "t" ["by_type"] none true noFail []).message
          = some "没有找到文件"
      ∧ (organize_files [samplePng] "t" ["by_type"] none false
          (fun _ _ => true) []).success = true := by
  have h := claim_C5 [] "t" ["by_type"] none true noFail []
  have h2 := claim_C5 [samplePng] "t" ["by_type"] none false (fun _ _ => true) []
  exact ⟨by simpa using h.1, h.2 rfl, by simpa using h2.1⟩

/-- C6: requesting `by_content` with no classifier produces the
`需要AI分析器` ("classifier required") error plan for that strategy only,
relocating nothing and leaving the filesystem untouched, while every other
requested recognized strategy (here `by_type`) still runs on the same
filesystem state and relocates files normally. -/
theorem claim_C6 :
    (∀ (ms : List String) (files : List FileInfo) (target : String) (keep : Bool)
        (ioFail : String → String → Bool) (fs : List String),
      runMethods files target none keep ioFail ("by_content" :: ms) fs
        = (("by_content", (⟨"by_content", [], [], some "需要AI分析器"⟩ : Plan))
            :: (runMethods files target none keep ioFail ms fs).1,
           (runMethods files target none keep ioFail ms fs).2))
    ∧ (∀ (f : FileInfo) (files : List FileInfo) (target : String) (keep : Bool)
        (ioFail : String → String → Bool) (fs : List String),
      (organize_files (f :: files) target ["by_content", "by_type"] none keep
          ioFail fs).success = true
      ∧ (organize_files (f :: files) target ["by_content", "by_type"] none keep
          ioFail fs).organized_files
        = [("by_content", ⟨"by_content", [], [], some "需要AI分析器"⟩),
           ("by_type", (organize_by_type (f :: files) target keep ioFail fs).1)])
    ∧ (organize_by_type [samplePng] "t" true noFail []).1.moved_files
        = [⟨"/src/a/photo.png", "t/按类型分类/图片文件/photo.png", "png"⟩] := by
  refine ⟨fun ms files target keep ioFail fs => rfl,
    fun f files target keep ioFail fs => ⟨rfl, rfl⟩, by decide⟩

/-- C7: the `by_size` bucket is a function of the size field alone, with
the fixed left-closed breakpoints 1024, 1048576, 10485760 and 104857600
bytes; a 150MB file lands in `huge` and a 500-byte file in `tiny`. -/
theorem claim_C7 (s : Nat) (f : FileInfo) (target : String) (keep : Bool)
    (fs : List String) :
    (size_category s
        = if s < 1024 then "tiny" else if s < 1048576 then "small"
          else if s < 10485760 then "medium" else if s < 104857600 then "large"
          else "huge")
      ∧ (organize_by_size [f] target keep noFail fs).1.moved_files
          = [⟨f.path,
              joinPath (joinPath (joinPath target "按大小分类")
                (get_chinese_name (size_category f.size))) f.name,
              size_category f.size⟩]
      ∧ size_category (150 * 1024 * 1024) = "huge"
      ∧ size_category 500 = "tiny"
      ∧ size_category 1023 = "tiny" ∧ size_category 1024 = "small"
      ∧ size_category 1048575 = "small" ∧ size_category 1048576 = "medium"
      ∧ size_category 10485759 = "medium" ∧ size_category 10485760 = "large"
      ∧ size_category 104857599 = "large" ∧ size_category 104857600 = "huge" := by
  refine ⟨rfl, ?_, by decide, by decide, by decide, by decide, by decide,
    by decide, by decide, by decide, by decide, by decide⟩
  simp [organize_by_size, bySizeGo, strategyStep, move_or_copy_file, noFail]

theorem byContentGo_filter (cl : FileInfo → AIResult) (target : String)
    (keep : Bool) (ioFail : String → String → Bool) :
    ∀ (files : List FileInfo) (dirs : List (String × List String))
      (moved : List MovedRecord) (fs : List String),
      byContentGo cl target keep ioFail files dirs moved fs
        = byContentGo cl target keep ioFail
            (files.filter (fun f => (cl f).ai_analysis)) dirs moved fs := by
  intro files
  induction files with
  | nil => intro dirs moved fs; rfl
  | cons f rest ih =>
      intro dirs moved fs
      by_cases h : (cl f).ai_analysis
      · simp only [List.filter_cons, h, if_true, byContentGo]
        exact ih _ _ _
      · simp only [List.filter_cons, h, Bool.false_eq_true, if_false, byContentGo]
        exact ih _ _ _

/-- C4 as amended: a file for which the classifier signals failure
(`ai_analysis` falsy) is skipped entirely by `by_content` — it is not
relocated (in particular not into an `unknown` bucket) and produces no
record — while the remaining files are processed as if the failed ones were
absent; the `unknown` bucket is used only when the classifier reports
success without supplying a category. -/
theorem claim_C4 :
    (∀ (cl : FileInfo → AIResult) (files : List FileInfo) (target : String)
        (keep : Bool) (ioFail : String → String → Bool) (fs : List String),
      organize_by_content (some cl) files target keep ioFail fs
        = organize_by_content (some cl)
            (files.filter (fun f => (cl f).ai_analysis)) target keep ioFail fs)
    ∧ (∀ (cl : FileInfo → AIResult) (f : FileInfo) (target : String)
        (keep : Bool) (fs : List String),
      (cl f).ai_analysis = false →
        organize_by_content (some cl) [f] target keep noFail fs
          = (⟨"by_content", [], [], none⟩, fs))
    ∧ (∀ (cl : FileInfo → AIResult) (f : FileInfo) (target : String)
        (keep : Bool) (fs : List String),
      (cl f).ai_analysis = true → (cl f).category = none →
        (organize_by_content (some cl) [f] target keep noFail fs).1.moved_files
          = [⟨f.path,
              joinPath (joinPath (joinPath target "按内容分类")
                (get_chinese_name "unknown")) f.name, "unknown"⟩]) := by
  refine ⟨?_, ?_, ?_⟩
  · intro cl files target keep ioFail fs
    simp only [organize_by_content]
    rw [byContentGo_filter]
  · intro cl f target keep fs h
    simp [organize_by_content, byContentGo, h]
  · intro cl f target keep fs h hc
    simp [organize_by_content, byContentGo, h, hc, strategyStep,
      move_or_copy_file, noFail]

/-- C4 witness: with an always-failing classifier the single file is left
untouched; with a succeeding classifier that omits the category, the file
goes to the `unknown` bucket. -/
theorem claim_C4_witness :
    organize_by_content (some (fun _ => (⟨false, none⟩ : AIResult))) [samplePng]
        "t" true noFail [] = (⟨"by_content", [], [], none⟩, [])
    ∧ (organize_by_content (some (fun _ => (⟨true, none⟩ : AIResult))) [samplePng]
        "t" true noFail []).1.moved_files
      = [⟨samplePng.path,
          joinPath (joinPath (joinPath "t" "按内容分类")
            (get_chinese_name "unknown")) samplePng.name, "unknown"⟩] :=
  ⟨claim_C4.2.1 _ samplePng "t" true [] rfl,
   claim_C4.2.2 _ samplePng "t" true [] rfl rfl⟩

/-- C4 counterexample: the classifier fails on the first of two files; the
failed file is not relocated anywhere (no `unknown` bucket appears for it),
while processing continues with the second file — refuting the claim that a
failed file is relocated into bucket `unknown`. -/
theorem claim_C4_counterexample :
    organize_by_content
        (some (fun f => if f.path = "/src/a/photo.png"
          then (⟨false, none⟩ : AIResult) else ⟨true, some "documents"⟩))
        [samplePng, samplePng2] "t" true noFail []
      = (⟨"by_content",
          [("t/按内容分类/文档资料", ["photo.png"])],
          [⟨"/src/b/photo.png", "t/按内容分类/文档资料/photo.png", "documents"⟩],
          none⟩,
         ["t/按内容分类/文档资料/photo.png"])
    ∧ (organize_by_content
        (some (fun f => if f.path = "/src/a/photo.png"
          then (⟨false, none⟩ : AIResult) else ⟨true, some "documents"⟩))
        [samplePng, samplePng2] "t" true noFail []).1.moved_files.map (·.original)
      = ["/src/b/photo.png"] := by
  exact ⟨by decide, by decide⟩

/-- C9 counterexample: `photo.jpg` and `photo.png` (equal stems, different
image extensions) do land in the single directory `图片文件`, but their
destination filenames, which include the extension, are already distinct,
so neither receives a numeric collision suffix — refuting the claim's final
clause. -/
theorem claim_C9_counterexample :
    organize_by_type [sampleJpg, samplePng] "t" true noFail []
      = (⟨"by_type",
          [("t/按类型分类/图片文件", ["photo.jpg", "photo.png"])],
          [⟨"/src/c/photo.jpg", "t/按类型分类/图片文件/photo.jpg", "jpg"⟩,
           ⟨"/src/a/photo.png", "t/按类型分类/图片文件/photo.png", "png"⟩],
          none⟩,
         ["t/按类型分类/图片文件/photo.jpg", "t/按类型分类/图片文件/photo.png"])
    ∧ "t/按类型分类/图片文件/photo_1.png"
        ∉ (organize_by_type [sampleJpg, samplePng] "t" true noFail []).2
    ∧ "t/按类型分类/图片文件/photo_1.jpg"
        ∉ (organize_by_type [sampleJpg, samplePng] "t" true noFail []).2 := by
  exact ⟨by decide, by decide, by decide⟩

/-- C9 as amended: every strategy's destination directory comes from
mapping the bucket key through the fixed `chinese_names` table (falling
back to the key itself when unmapped), and that mapping is not injective —
`jpg`, `png`, `gif`, `bmp`, `tiff`, `heic` and `webp` all map to `图片文件`
— so two files with equal stems but different image extensions share one
destination directory; their destination filenames, however, include the
extension and remain distinct, so no numeric collision suffix is added. -/
theorem claim_C9 (k : String) :
    (List.lookup k chinese_names = none → get_chinese_name k = k)
    ∧ (get_chinese_name "jpg" = "图片文件" ∧ get_chinese_name "png" = "图片文件"
       ∧ get_chinese_name "gif" = "图片文件" ∧ get_chinese_name "bmp" = "图片文件"
       ∧ get_chinese_name "tiff" = "图片文件" ∧ get_chinese_name "heic" = "图片文件"
       ∧ get_chinese_name "webp" = "图片文件")
    ∧ (type_bucket sampleJpg ≠ type_bucket samplePng
       ∧ get_chinese_name (type_bucket sampleJpg)
           = get_chinese_name (type_bucket samplePng))
    ∧ ((organize_by_type [sampleJpg, samplePng] "t" true noFail []).2
         = ["t/按类型分类/图片文件/photo.jpg", "t/按类型分类/图片文件/photo.png"]
       ∧ ((organize_by_type [sampleJpg, samplePng] "t" true noFail []).2).Nodup) := by
  refine ⟨?_, by decide, by decide, by decide, by decide⟩
  intro h
  simp [get_chinese_name, h]

/-- C9 witness: an unmapped bucket key is used verbatim as the directory
name. -/
theorem claim_C9_witness : get_chinese_name "misc_bucket" = "misc_bucket" :=
  (claim_C9 "misc_bucket").1 (by decide)

/-- C2: whenever a run completes successfully, its report counts and sizes
the scanned descriptor list itself — `total_files` is the number of
descriptors, `total_size` their summed sizes, and the per-coarse-type
statistics hold, for every type, the count and summed size of the scanned
descriptors of that type — independently of the per-file failure pattern. -/
theorem claim_C2 (files : List FileInfo) (target : String) (methods : List String)
    (classifier : Option (FileInfo → AIResult)) (keep : Bool)
    (ioFail : String → String → Bool) (fs : List String) (r : Report)
    (hs : (organize_files files target methods classifier keep ioFail fs).success
        = true)
    (hr : (organize_files files target methods classifier keep ioFail fs).report
        = some r) :
    r.total_files = files.length
      ∧ r.total_size = (files.map (·.size)).sum
      ∧ ∀ t, statOf r.type_statistics t = (countType files t, sizeType files t) := by
  by_cases h : files.isEmpty
  · simp [organize_files, h] at hs
  · simp only [organize_files, h, if_false, Bool.false_eq_true] at hr
    have hr2 : generate_report
        (runMethods files target classifier keep ioFail methods fs).1 files = r := by
      simpa using hr
    subst hr2
    refine ⟨rfl, rfl, fun t => ?_⟩
    have := statOf_foldl_bumpStat files [] t
    simpa [generate_report, statOf_nil] using this

/-- C2 witness: a concrete two-file run in which every relocation fails
still reports both scanned files, their total size, and their image-type
statistics. -/
theorem claim_C2_witness :
    (organize_files [samplePng, sampleJpg] "t" ["by_type"] none false
        (fun _ _ => true) []).success = true
    ∧ (⟨2, 6144, [("image", 2, 6144)], ["by_type"]⟩ : Report).total_files
        = [samplePng, sampleJpg].length
    ∧ (⟨2, 6144, [("image", 2, 6144)], ["by_type"]⟩ : Report).total_size
        = ([samplePng, sampleJpg].map (·.size)).sum
    ∧ statOf (⟨2, 6144, [("image", 2, 6144)], ["by_type"]⟩ : Report).type_statistics
          "image"
        = (countType [samplePng, sampleJpg] "image",
           sizeType [samplePng, sampleJpg] "image") := by
  have h := claim_C2 [samplePng, sampleJpg] "t" ["by_type"] none false
    (fun _ _ => true) [] ⟨2, 6144, [("image", 2, 6144)], ["by_type"]⟩
    (by decide) (by decide)
  exact ⟨by decide, h.1, h.2.1, h.2.2 "image"⟩

theorem strLower_dot_append (rest : String) :
    strLower ("." ++ rest) = ⟨'.' :: (strLower rest).data⟩ := by
  apply string_data_inj
  have hdot : Char.toLower '.' = '.' := by decide
  simp [strLower, data_append, hdot]

theorem ext_key_raw_dot (rest : String) (h : rest ≠ "") :
    ext_key_raw ("." ++ rest) = strLower rest := by
  have hne : (strLower rest).data ≠ [] := by
    intro hc
    apply h
    apply string_data_inj
    have hmap : rest.data.map Char.toLower = [] := hc
    simpa using List.map_eq_nil_iff.mp hmap
  simp only [ext_key_raw, strLower_dot_append rest]
  have h1 : strStartsWithDot ⟨'.' :: (strLower rest).data⟩ = true := rfl
  have h2 : strLen ⟨'.' :: (strLower rest).data⟩ > 1 := by
    simp only [strLen, List.length_cons]
    have := List.length_pos.mpr hne
    omega
  simp [h1, h2, strDrop1]

/-- C8: the `by_type` bucket key is the normalized lowercase extension
without its leading dot (`jpeg`/`jpe`→`jpg`, `tif`→`tiff`, `htm`→`html`),
an empty extension gives the sentinel `no_ext`, and the bucket is
independent of the descriptor's coarse `file_type` and `mime_type`. -/
theorem claim_C8 (f : FileInfo) (rest t : String) :
    (f.extension = "" → type_bucket f = "no_ext")
    ∧ (f.extension = "." ++ rest → rest ≠ "" →
        type_bucket f = normalize_extension (strLower rest))
    ∧ type_bucket {f with file_type := t} = type_bucket f
    ∧ type_bucket {f with mime_type := t} = type_bucket f
    ∧ type_bucket {f with extension := ".JPEG"} = "jpg"
    ∧ type_bucket {f with extension := ".jpe"} = "jpg"
    ∧ type_bucket {f with extension := ".tif"} = "tiff"
    ∧ type_bucket {f with extension := ".htm"} = "html"
    ∧ type_bucket {f with extension := ".png"} = "png" := by
  refine ⟨?_, ?_, rfl, rfl, rfl, rfl, rfl, rfl, rfl⟩
  · intro h
    simp only [type_bucket, h]
    rfl
  · intro h hne
    simp only [type_bucket, h, ext_key_raw_dot rest hne]

/-- C8 witness: the sample PNG descriptor, whose extension is `.png`,
receives the bucket `png`. -/
theorem claim_C8_witness :
    type_bucket samplePng = normalize_extension (strLower "png")
      ∧ type_bucket samplePng = "png" :=
  ⟨(claim_C8 samplePng "png" "video").2.1 rfl (by decide), by decide⟩

theorem resolve_scenario (name : String) (k : Nat) (ex : List String)
    (hlen : ex.length = k + 1)
    (hmem : ∀ x, x ∈ ex ↔ x = name
        ∨ ∃ i, i < k ∧ x = cand (splitext name).1 (splitext name).2 (i + 1)) :
    resolve_destination ex name
      = cand (splitext name).1 (splitext name).2 (k + 1) := by
  have hname : name ∈ ex := (hmem name).mpr (Or.inl rfl)
  have hfree : cand (splitext name).1 (splitext name).2 (1 + k) ∉ ex := by
    intro hc
    rcases (hmem _).mp hc with heq | ⟨i, hi, heq⟩
    · exact cand_ne_join (splitext_append name) (1 + k) heq
    · have := cand_injective _ _ heq
      omega
  have hin : ∀ i, i < k →
      cand (splitext name).1 (splitext name).2 (1 + i) ∈ ex := by
    intro i hi
    refine (hmem _).mpr (Or.inr ⟨i, hi, ?_⟩)
    congr 1
    omega
  unfold resolve_destination
  rw [if_pos hname, hlen]
  rw [findFree_eq ex (splitext name).1 (splitext name).2 (k + 1 + 1) 1 k
    (by omega) hfree hin]
  congr 1
  omega

theorem placeSeq_same_name (name : String) :
    ∀ (N k : Nat) (ex : List String),
      ex.length = k + 1 →
      (∀ x, x ∈ ex ↔ x = name
          ∨ ∃ i, i < k ∧ x = cand (splitext name).1 (splitext name).2 (i + 1)) →
      placeSeq (List.replicate N name) ex
        = (List.range N).map
            (fun i => cand (splitext name).1 (splitext name).2 (k + 1 + i)) := by
  intro N
  induction N with
  | zero => intro k ex _ _; simp [placeSeq]
  | succ N ih =>
      intro k ex hlen hmem
      have hres := resolve_scenario name k ex hlen hmem
      simp only [List.replicate_succ, placeSeq, hres]
      rw [ih (k + 1) (cand (splitext name).1 (splitext name).2 (k + 1) :: ex)
        (by simp [hlen])
        (by
          intro x
          simp only [List.mem_cons, hmem]
          constructor
          · rintro (rfl | hx | ⟨i, hi, rfl⟩)
            · exact Or.inr ⟨k, by omega, rfl⟩
            · exact Or.inl hx
            · exact Or.inr ⟨i, by omega, rfl⟩
          · rintro (rfl | ⟨i, hi, rfl⟩)
            · exact Or.inr (Or.inl rfl)
            · by_cases hik : i = k
              · subst hik; exact Or.inl rfl
              · exact Or.inr (Or.inr ⟨i, by omega, rfl⟩))]
      rw [List.range_succ_eq_map]
      simp only [List.map_cons, List.map_map]
      have hhead : cand (splitext name).1 (splitext name).2 (k + 1 + 0)
          = cand (splitext name).1 (splitext name).2 (k + 1) := by norm_num
      have htail : (List.range N).map
            ((fun i => cand (splitext name).1 (splitext name).2 (k + 1 + i))
              ∘ Nat.succ)
          = (List.range N).map
            (fun i => cand (splitext name).1 (splitext name).2 (k + 1 + 1 + i)) := by
        refine List.map_congr_left fun i _ => ?_
        simp only [Function.comp_apply]
        congr 1
        omega
      rw [hhead, htail]

/-- C1: within one run, sequential placement into a destination directory
yields pairwise-distinct destination names, none of which overwrites a
pre-existing path; and placing `N + 1` files sharing one base name into an
empty directory keeps the bare name for exactly the first and gives the
others the suffixes `_1`, `_2`, …, `_N` inserted before the extension, each
being the first free name. -/
theorem claim_C1 (ds existing : List String) (N : Nat) (name : String) :
    ((placeSeq ds existing).Nodup
      ∧ ∀ x ∈ placeSeq ds existing, x ∉ existing)
    ∧ placeSeq (List.replicate (N + 1) name) []
        = name :: (List.range N).map
            (fun i => cand (splitext name).1 (splitext name).2 (i + 1)) := by
  constructor
  · obtain ⟨h1, h2⟩ := placeSeq_fresh_nodup ds existing
    exact ⟨h2, h1⟩
  · have h0 : resolve_destination [] name = name := by
      simp [resolve_destination]
    simp only [List.replicate_succ, placeSeq, h0]
    rw [placeSeq_same_name name N 0 [name] (by simp)
      (by
        intro x
        constructor
        · intro hx
          exact Or.inl (List.mem_singleton.mp hx)
        · rintro (rfl | ⟨i, hi, _⟩)
          · exact List.mem_singleton.mpr rfl
          · omega)]
    congr 1
    refine List.map_congr_left fun i _ => ?_
    congr 1
    omega

theorem strategyStep_moved (ioFail : String → String → Bool) (keep : Bool)
    (bucketDir key : String) (f : FileInfo) (dirs : List (String × List String))
    (moved : List MovedRecord) (fs : List String) :
    ∀ r ∈ (strategyStep ioFail keep bucketDir key f dirs moved fs).2.1,
      r ∈ moved ∨ r = ⟨f.path, joinPath bucketDir f.name, key⟩ := by
  intro r hr
  simp only [strategyStep] at hr
  split at hr
  · rcases List.mem_append.mp hr with h1 | h1
    · exact Or.inl h1
    · exact Or.inr (List.mem_singleton.mp h1)
  · exact Or.inl hr

theorem byTypeGo_moved (target : String) (keep : Bool)
    (ioFail : String → String → Bool) :
    ∀ (files : List FileInfo) (dirs : List (String × List String))
      (moved : List MovedRecord) (fs : List String),
      ∀ r ∈ (byTypeGo target keep ioFail files dirs moved fs).2.1,
        r ∈ moved ∨ ∃ f ∈ files, r = type_record_of target f := by
  intro files
  induction files with
  | nil => intro dirs moved fs r hr; exact Or.inl hr
  | cons f rest ih =>
      intro dirs moved fs r hr
      simp only [byTypeGo] at hr
      rcases ih _ _ _ r hr with hmem | ⟨g, hg, rfl⟩
      · rcases strategyStep_moved ioFail keep _ _ f dirs moved fs r hmem with h1 | h1
        · exact Or.inl h1
        · refine Or.inr ⟨f, List.mem_cons_self _ _, ?_⟩
          rw [h1]; rfl
      · exact Or.inr ⟨g, List.mem_cons_of_mem _ hg, rfl⟩

theorem byTypeGo_noFail_moved (target : String) (keep : Bool) :
    ∀ (files : List FileInfo) (dirs : List (String × List String))
      (moved : List MovedRecord) (fs : List String),
      (byTypeGo target keep noFail files dirs moved fs).2.1
        = moved ++ files.map (type_record_of target) := by
  intro files
  induction files with
  | nil => intro dirs moved fs; simp [byTypeGo]
  | cons f rest ih =>
      intro dirs moved fs
      simp only [byTypeGo, strategyStep, move_or_copy_file, noFail, if_false,
        Bool.false_eq_true, if_true, List.map_cons]
      rw [ih]
      simp [type_record_of, type_dir_of, List.append_assoc]

/-- C10: the relocation records of `by_type` always report the
pre-collision candidate path `type_dir/name` as the new path (the record is
`type_record_of`, built from the un-suffixed join), and in a colliding run
the directory manifest lists the original base names while the actually
created suffixed path `photo_1.png` appears in the filesystem but nowhere
in the plan. -/
theorem claim_C10 :
    (∀ (files : List FileInfo) (target : String) (keep : Bool)
        (ioFail : String → String → Bool) (fs : List String),
      ∀ r ∈ (organize_by_type files target keep ioFail fs).1.moved_files,
        ∃ f ∈ files, r = type_record_of target f)
    ∧ (∀ (files : List FileInfo) (target : String) (keep : Bool)
        (fs : List String),
      (organize_by_type files target keep noFail fs).1.moved_files
        = files.map (type_record_of target))
    ∧ organize_by_type [samplePng, samplePng2] "t" true noFail []
        = (⟨"by_type",
            [("t/按类型分类/图片文件", ["photo.png", "photo.png"])],
            [⟨"/src/a/photo.png", "t/按类型分类/图片文件/photo.png", "png"⟩,
             ⟨"/src/b/photo.png", "t/按类型分类/图片文件/photo.png", "png"⟩],
            none⟩,
           ["t/按类型分类/图片文件/photo.png", "t/按类型分类/图片文件/photo_1.png"])
    ∧ "t/按类型分类/图片文件/photo_1.png"
        ∉ ((organize_by_type [samplePng, samplePng2] "t" true noFail []).1.moved_files.map (·.new))
    ∧ "photo_1.png"
        ∉ (((organize_by_type [samplePng, samplePng2] "t" true noFail []).1.directories.map (·.2)).flatten) := by
  refine ⟨?_, ?_, by decide, by decide, by decide⟩
  · intro files target keep ioFail fs r hr
    have h := byTypeGo_moved target keep ioFail files [] [] fs r
      (by simpa [organize_by_type] using hr)
    rcases h with h | h
    · simp at h
    · exact h
  · intro files target keep fs
    simp only [organize_by_type]
    rw [byTypeGo_noFail_moved]
    simp

/-- C10 witness: in a run in which the second file's relocation fails, the
one recorded relocation is the candidate-path record of one of the two
input descriptors. -/
theorem claim_C10_witness :
    (⟨"/src/a/photo.png", "t/按类型分类/图片文件/photo.png", "png"⟩ : MovedRecord)
        = type_record_of "t" samplePng
    ∨ (⟨"/src/a/photo.png", "t/按类型分类/图片文件/photo.png", "png"⟩ : MovedRecord)
        = type_record_of "t" samplePng2 := by
  have h := claim_C10.1 [samplePng, samplePng2] "t" false
    (fun s _ => decide (s = "/src/b/photo.png")) []
    ⟨"/src/a/photo.png", "t/按类型分类/图片文件/photo.png", "png"⟩ (by decide)
  rcases h with ⟨f, hf, heq⟩
  rcases List.mem_cons.mp hf with rfl | hf2
  · exact Or.inl heq
  · rcases List.mem_cons.mp hf2 with rfl | hf3
    · exact Or.inr heq
    · simp at hf3

end FileExtractor
